import Mathlib

/-!
Verification of `scripts/language_model/sampler.py` (gluon-nlp):
the `LogUniformSampler` candidate sampler and its expected-count estimator.

The numeric layer of the source (float64 probability math, `log1p`/`expm1`)
is embedded over `ℝ`; the NDArray layer is embedded as a dtype tag together
with a list of exact real values (the rounding performed by an actual IEEE
cast is a floating-point concern outside this shallow embedding, so `astype`
changes the tag and keeps the values).  The native `log_uniform` module is
not part of the sources and is modelled from the spec (see `sample_unique`).
-/

namespace GluonNLP

/-- The mxnet/numpy dtypes that appear in `sampler.py`:
`int64` for the raw sampled candidates, `float64` for the probability math,
and `float32` as the default output dtype (`np.float32 if dtype is None`). -/
inductive Dtype
  | float16
  | float32
  | float64
  | int32
  | int64
  deriving DecidableEq

/-- An mxnet NDArray, embedded as a dtype tag plus the (flattened) list of
its values as exact reals.  Shape is embedded as list length. -/
structure NDArray where
  dtype : Dtype
  data : List ℝ

/-- `NDArray.astype(dtype, ...)`: retag the array.  The IEEE rounding of a
real cast is outside the embedding; values are kept exact. -/
def NDArray.astype (a : NDArray) (d : Dtype) : NDArray :=
  { dtype := d, data := a.data }

/-- `expm1(x) = e^x - 1`, the stable primitive used by the source
(`.expm1()` on NDArray). -/
noncomputable def expm1 (x : ℝ) : ℝ :=
  Real.exp x - 1

/-- `log1p(x) = log(1 + x)`, the stable primitive used by the source
(`.log1p()` on NDArray). -/
noncomputable def log1p (x : ℝ) : ℝ :=
  Real.log (1 + x)

/-- The elementwise expression `((x + 2.0) / (x + 1.0)).log() / log_range`
from `LogUniformSampler.__call__` (applied to both the float64-cast true
classes and the float64-cast sampled classes). -/
noncomputable def probExpr (log_range : ℝ) (x : ℝ) : ℝ :=
  Real.log ((x + 2) / (x + 1)) / log_range

/-- `LogUniformSampler._prob_helper(num_tries, num_sampled, prob)`:
`prob * num_sampled` when `num_tries == num_sampled`, otherwise
`(num_tries * (-prob).log1p()).expm1() * -1`.  The source applies it
elementwise; this is the scalar body (`num_tries` and `num_sampled`
are scalars in the source as well). -/
noncomputable def prob_helper (num_tries num_sampled : ℕ) (prob : ℝ) : ℝ :=
  if num_tries = num_sampled then prob * num_sampled
  else expm1 ((num_tries : ℝ) * log1p (-prob)) * (-1)

/-- A linear congruential step standing for the native pseudo-random
generator state transition. -/
def lcgStep (x : ℕ) : ℕ :=
  (1103515245 * x + 12345) % 2147483648

/-- Modelled from the spec: the native `log_uniform.LogUniformSampler`
module (C++ source, not among the Python sources) with contract
`sample_unique(k) -> (set of k distinct integers in [0, range_max),
attempts ≥ k)`, deterministic given the seed, failing with an
InvalidArgument condition when `k > range_max`.  The log-uniform
inverse-CDF transform `floor(exp(u * ln(range_max+1)) - 1)` of a single
draw is an irrational-valued map with no computable shallow embedding, so
the draws are modelled by a deterministic seeded stride, which preserves
everything the spec contracts for: `k` distinct integers in
`[0, range_max)`, an `attempts` count `≥ k`, determinism in the seed
state, and the `k > range_max` failure.  The returned triple is
`(sampled, attempts, next generator state)`. -/
def sample_unique (range_max k : ℕ) (state : ℕ) : Except String (List ℕ × ℕ × ℕ) :=
  if k > range_max then
    Except.error "InvalidArgument: cannot draw k distinct values when k > range_max"
  else
    let x := lcgStep state
    Except.ok ((List.range k).map (fun t => (x % range_max + t) % range_max), k, x)

/-- The sampler object: `__init__` state.  `log_range = math.log(range_max + 1)`;
`range_max` and `seed` live in the native `_csampler`, whose evolving
generator state is threaded explicitly through `call`. -/
structure LogUniformSampler where
  num_sampled : ℕ
  log_range : ℝ
  range_max : ℕ
  seed : ℕ
  dtype : Dtype

/-- `LogUniformSampler.__init__(range_max, num_sampled, dtype=None, seed=0)`:
stores `num_sampled`, precomputes `log_range`, constructs the candidate
sampler from `(range_max, seed)`, and sets
`_dtype = np.float32 if dtype is None else dtype`. -/
noncomputable def LogUniformSampler.init (range_max num_sampled : ℕ)
    (dtype : Option Dtype) (seed : ℕ) : LogUniformSampler :=
  { num_sampled := num_sampled
    log_range := Real.log ((range_max : ℝ) + 1)
    range_max := range_max
    seed := seed
    dtype := dtype.getD Dtype.float32 }

/-- `LogUniformSampler.__call__(true_classes)`.  The true classes arrive as
an integer NDArray (embedded: a list of integers); the generator state of
the native candidate sampler is threaded explicitly (initially `seed`).
Returns `((sampled_classes, expected_count_true, expected_count_sample),
next state)`.  Mirrors the source line by line: one `sample_unique` call,
float64 cast of the true classes, the probability expression, the
`_prob_helper` correction with the single `num_tries`, the same for the
sampled classes, and the final `astype(self._dtype)` of all three outputs. -/
noncomputable def LogUniformSampler.call (s : LogUniformSampler) (state : ℕ)
    (true_classes : List ℤ) : Except String ((NDArray × NDArray × NDArray) × ℕ) :=
  match sample_unique s.range_max s.num_sampled state with
  | Except.error e => Except.error e
  | Except.ok (sampled, num_tries, state2) =>
    let true_cls : NDArray :=
      NDArray.astype { dtype := Dtype.int64, data := true_classes.map (fun (z : ℤ) => (z : ℝ)) }
        Dtype.float64
    let prob_true : List ℝ := true_cls.data.map (probExpr s.log_range)
    let count_true : NDArray :=
      { dtype := Dtype.float64
        data := prob_true.map (prob_helper num_tries s.num_sampled) }
    let sampled_arr : NDArray :=
      { dtype := Dtype.int64, data := sampled.map (fun (n : ℕ) => (n : ℝ)) }
    let sampled_fp64 : NDArray := NDArray.astype sampled_arr Dtype.float64
    let prob_sampled : List ℝ := sampled_fp64.data.map (probExpr s.log_range)
    let count_sampled : NDArray :=
      { dtype := Dtype.float64
        data := prob_sampled.map (prob_helper num_tries s.num_sampled) }
    Except.ok ((NDArray.astype sampled_arr s.dtype,
                NDArray.astype count_true s.dtype,
                NDArray.astype count_sampled s.dtype), state2)

/-- The trace of the `(sampled_classes, attempts)` pairs produced by `m`
consecutive `sample_unique` calls of one native sampler, threading its
generator state. -/
def sampleTraceFrom (R k : ℕ) : ℕ → ℕ → List (Except String (List ℕ × ℕ))
  | _, 0 => []
  | state, m + 1 =>
    match sample_unique R k state with
    | Except.error e => [Except.error e]
    | Except.ok (sc, t, st2) => Except.ok (sc, t) :: sampleTraceFrom R k st2 m

/-- The `(sampled_classes, attempts)` sequence a sampler instance produces
over `m` repeated calls, starting from its construction seed. -/
def LogUniformSampler.sampleTrace (s : LogUniformSampler) (m : ℕ) :
    List (Except String (List ℕ × ℕ)) :=
  sampleTraceFrom s.range_max s.num_sampled s.seed m

/-- On `(0, 1)` probabilities the general branch expression is the
complement power form: `expm1 (t * log1p (-p)) * (-1) = 1 - (1 - p) ^ t`. -/
theorem expm1_log1p_eq_pow (p : ℝ) (hp : p < 1) (t : ℕ) :
    expm1 ((t : ℝ) * log1p (-p)) * (-1) = 1 - (1 - p) ^ t := by
  have h1p : (0 : ℝ) < 1 - p := by linarith
  have hlog : log1p (-p) = Real.log (1 - p) := by
    unfold log1p
    ring_nf
  rw [hlog]
  unfold expm1
  rw [Real.exp_nat_mul, Real.exp_log h1p]
  ring

/-- When `k ≤ range_max` the modelled unique sampler succeeds, returning
`k` stride-distinct indices, an attempt count, and the advanced state. -/
theorem sample_unique_ok (R k state : ℕ) (h : k ≤ R) :
    sample_unique R k state =
      Except.ok ((List.range k).map (fun t => (lcgStep state % R + t) % R), k,
        lcgStep state) := by
  unfold sample_unique
  rw [if_neg (by omega)]

/-- When `num_sampled ≤ range_max` the call returns successfully; the exact
shape of all three outputs as produced by the source pipeline. -/
theorem call_ok (s : LogUniformSampler) (state : ℕ) (tc : List ℤ)
    (hk : s.num_sampled ≤ s.range_max) :
    s.call state tc = Except.ok
      (({ dtype := s.dtype
          data := ((List.range s.num_sampled).map
            (fun t => (lcgStep state % s.range_max + t) % s.range_max)).map
            (fun (m : ℕ) => (m : ℝ)) },
        { dtype := s.dtype
          data := tc.map (fun (z : ℤ) =>
            prob_helper s.num_sampled s.num_sampled (probExpr s.log_range (z : ℝ))) },
        { dtype := s.dtype
          data := ((List.range s.num_sampled).map
            (fun t => (lcgStep state % s.range_max + t) % s.range_max)).map
            (fun (m : ℕ) => prob_helper s.num_sampled s.num_sampled
              (probExpr s.log_range (m : ℝ))) }),
       lcgStep state) := by
  unfold LogUniformSampler.call
  rw [sample_unique_ok _ _ _ hk]
  simp [NDArray.astype, List.map_map, Function.comp]

/-- The call fails when `num_sampled > range_max` (the modelled
InvalidArgument condition of the unique sampler). -/
theorem call_err (s : LogUniformSampler) (state : ℕ) (tc : List ℤ)
    (hk : s.range_max < s.num_sampled) :
    s.call state tc =
      Except.error "InvalidArgument: cannot draw k distinct values when k > range_max" := by
  unfold LogUniformSampler.call sample_unique
  rw [if_pos hk]

/-- The base probability is in `[0, 1]` for class values below `range_max`. -/
theorem probExpr_bounds (R : ℕ) (hR : 1 ≤ R) (x : ℝ) (hx0 : 0 ≤ x)
    (hx1 : x + 1 ≤ (R : ℝ)) :
    0 ≤ probExpr (Real.log ((R : ℝ) + 1)) x ∧
      probExpr (Real.log ((R : ℝ) + 1)) x ≤ 1 := by
  have hRr : (1 : ℝ) ≤ (R : ℝ) := by exact_mod_cast hR
  have hL : 0 < Real.log ((R : ℝ) + 1) := Real.log_pos (by linarith)
  have hx1p : (0 : ℝ) < x + 1 := by linarith
  have hratio1 : (1 : ℝ) ≤ (x + 2) / (x + 1) := by
    rw [le_div_iff hx1p]; linarith
  have hratio2 : (x + 2) / (x + 1) ≤ (R : ℝ) + 1 := by
    rw [div_le_iff hx1p]
    nlinarith [mul_nonneg (by linarith : (0 : ℝ) ≤ (R : ℝ) - 1) hx0]
  constructor
  · exact div_nonneg (Real.log_nonneg hratio1) hL.le
  · rw [probExpr, div_le_one hL]
    exact Real.log_le_log (by linarith) hratio2

/-- The base probability is strictly below 1 once `range_max ≥ 2`. -/
theorem probExpr_lt_one (R : ℕ) (hR : 2 ≤ R) (x : ℝ) (hx0 : 0 ≤ x) :
    probExpr (Real.log ((R : ℝ) + 1)) x < 1 := by
  have hRr : (2 : ℝ) ≤ (R : ℝ) := by exact_mod_cast hR
  have hL : 0 < Real.log ((R : ℝ) + 1) := Real.log_pos (by linarith)
  have hx1p : (0 : ℝ) < x + 1 := by linarith
  have h2 : (x + 2) / (x + 1) ≤ 2 := by
    rw [div_le_iff hx1p]; linarith
  rw [probExpr, div_lt_one hL]
  exact Real.log_lt_log (div_pos (by linarith) hx1p) (by linarith)

/-- The base probability expression is non-increasing in the class value. -/
theorem probExpr_antitone (L : ℝ) (hL : 0 < L) (x y : ℝ) (hx : 0 ≤ x) (hxy : x ≤ y) :
    probExpr L y ≤ probExpr L x := by
  have hx1 : (0 : ℝ) < x + 1 := by linarith
  have hy1 : (0 : ℝ) < y + 1 := by linarith
  have hnum : Real.log ((y + 2) / (y + 1)) ≤ Real.log ((x + 2) / (x + 1)) := by
    apply Real.log_le_log (div_pos (by linarith) hy1)
    rw [div_le_div_iff hy1 hx1]
    nlinarith
  simp only [probExpr]
  exact div_le_div_of_nonneg_right hnum hL.le

/-- Expected counts stay in `[0, num_sampled]` for probabilities in `[0, 1]`,
whatever the attempt count. -/
theorem prob_helper_mem (t n : ℕ) (p : ℝ) (hn : 1 ≤ n) (hp0 : 0 ≤ p) (hp1 : p ≤ 1) :
    0 ≤ prob_helper t n p ∧ prob_helper t n p ≤ (n : ℝ) := by
  have hnr : (1 : ℝ) ≤ (n : ℝ) := by exact_mod_cast hn
  unfold prob_helper
  split_ifs with h
  · constructor
    · exact mul_nonneg hp0 (by positivity)
    · calc p * (n : ℝ) ≤ 1 * (n : ℝ) := mul_le_mul_of_nonneg_right hp1 (by positivity)
        _ = (n : ℝ) := one_mul _
  · rcases lt_or_eq_of_le hp1 with hlt | heq
    · rw [expm1_log1p_eq_pow p hlt t]
      have hub : (1 - p) ^ t ≤ 1 := pow_le_one₀ (by linarith) (by linarith)
      have hlb : 0 ≤ (1 - p) ^ t := pow_nonneg (by linarith) t
      constructor
      · linarith
      · linarith
    · subst heq
      have h0 : log1p (-1 : ℝ) = 0 := by
        unfold log1p; norm_num
      rw [h0, mul_zero]
      unfold expm1
      rw [Real.exp_zero]
      constructor
      · norm_num
      · simp only [sub_self, zero_mul]
        positivity

/-- The expected-count estimator is monotone in the base probability (for
probabilities in `[0, 1)`), for any fixed attempt count. -/
theorem prob_helper_mono (t n : ℕ) (p q : ℝ) (hp0 : 0 ≤ p) (hpq : p ≤ q) (hq1 : q < 1) :
    prob_helper t n p ≤ prob_helper t n q := by
  unfold prob_helper
  split_ifs with h
  · exact mul_le_mul_of_nonneg_right hpq (by positivity)
  · rw [expm1_log1p_eq_pow p (lt_of_le_of_lt hpq hq1) t,
      expm1_log1p_eq_pow q hq1 t]
    have hpow : (1 - q) ^ t ≤ (1 - p) ^ t :=
      pow_le_pow_left₀ (by linarith) (by linarith) t
    linarith

/-- `1/2 < log 2 / log 3`, since `log 3 < log 4 = 2 log 2`. -/
theorem log2_div_log3_gt_half : (1 : ℝ) / 2 < Real.log 2 / Real.log 3 := by
  have h3 : (0 : ℝ) < Real.log 3 := Real.log_pos (by norm_num)
  have h4 : Real.log 3 < Real.log 4 := Real.log_lt_log (by norm_num) (by norm_num)
  have h4e : Real.log 4 = 2 * Real.log 2 := by
    rw [show (4 : ℝ) = 2 ^ 2 by norm_num, Real.log_pow]
    norm_num
  rw [div_lt_div_iff (by norm_num) h3]
  linarith

/-- `log 2 / log 3 < 1`. -/
theorem log2_div_log3_lt_one : Real.log 2 / Real.log 3 < 1 := by
  have h3 : (0 : ℝ) < Real.log 3 := Real.log_pos (by norm_num)
  rw [div_lt_one h3]
  exact Real.log_lt_log (by norm_num) (by norm_num)

/-- The base probability of class 0 in a two-class configuration. -/
theorem probExpr_three_zero :
    probExpr (Real.log ((2 : ℝ) + 1)) 0 = Real.log 2 / Real.log 3 := by
  simp only [probExpr]
  norm_num

/-- C1: the expected count computed by the estimator (`_prob_helper`)
equals `p * num_sampled` when `attempts = num_sampled`, and otherwise
equals `-(expm1 (attempts * log1p (-p)))`, which for `p < 1` is
`1 - (1 - p) ^ attempts`. -/
theorem prob_helper_spec (p : ℝ) (t n : ℕ) :
    (t = n → prob_helper t n p = p * n) ∧
    (t ≠ n → prob_helper t n p = -(expm1 ((t : ℝ) * log1p (-p))) ∧
      (p < 1 → prob_helper t n p = 1 - (1 - p) ^ t)) := by
  constructor
  · intro h
    simp [prob_helper, h]
  · intro h
    constructor
    · simp only [prob_helper, if_neg h]
      ring
    · intro hp
      simp only [prob_helper, if_neg h]
      exact expm1_log1p_eq_pow p hp t

/-- C1 witness: the two branches at concrete inputs. -/
theorem prob_helper_spec_witness :
    prob_helper 3 3 (1/2) = (1/2 : ℝ) * 3 ∧
      prob_helper 2 3 (1/2) = 1 - (1 - (1/2 : ℝ)) ^ 2 :=
  ⟨(prob_helper_spec (1/2) 3 3).1 rfl,
   ((prob_helper_spec (1/2) 2 3).2 (by norm_num)).2 (by norm_num)⟩

/-- C2: the per-class base probability feeding the estimator equals
`ln((c+2)/(c+1)) / ln(range_max+1)`, and it is computed on the float64 cast
of the classes, before and independently of the configured output dtype:
two samplers differing only in dtype produce identical expected-count
values. -/
theorem base_prob_spec (R n : ℕ) (d1 d2 : Option Dtype) (s state : ℕ) (tc : List ℤ)
    (hk : n ≤ R) :
    ∃ out1 out2 : NDArray × NDArray × NDArray, ∃ st2 t : ℕ,
      (LogUniformSampler.init R n d1 s).call state tc = Except.ok (out1, st2) ∧
      (LogUniformSampler.init R n d2 s).call state tc = Except.ok (out2, st2) ∧
      out1.2.1.data = tc.map (fun (c : ℤ) =>
        prob_helper t n
          (Real.log (((c : ℝ) + 2) / ((c : ℝ) + 1)) / Real.log ((R : ℝ) + 1))) ∧
      out1.2.1.data = out2.2.1.data := by
  refine ⟨_, _, _, n, call_ok _ state tc hk, call_ok _ state tc hk, ?_, ?_⟩
  · rfl
  · rfl

/-- C2 witness: two concrete configurations differing only in dtype. -/
theorem base_prob_spec_witness :
    ∃ out1 out2 : NDArray × NDArray × NDArray, ∃ st2 t : ℕ,
      (LogUniformSampler.init 10 3 none 0).call 0 [(0 : ℤ), 0, 5] =
        Except.ok (out1, st2) ∧
      (LogUniformSampler.init 10 3 (some Dtype.float64) 0).call 0 [(0 : ℤ), 0, 5] =
        Except.ok (out2, st2) ∧
      out1.2.1.data = [(0 : ℤ), 0, 5].map (fun (c : ℤ) =>
        prob_helper t 3
          (Real.log (((c : ℝ) + 2) / ((c : ℝ) + 1)) / Real.log ((10 : ℝ) + 1))) ∧
      out1.2.1.data = out2.2.1.data :=
  base_prob_spec 10 3 none (some Dtype.float64) 0 0 [0, 0, 5] (by norm_num)

/-- C3: one call threads exactly one `sample_unique` invocation (the
returned generator state is that single invocation's post-state), and the
one `attempts` value it yields is used elementwise for the expected counts
of every true class and every sampled class; `expected_count_true` has the
length of `true_classes`. -/
theorem single_sample_call (R n : ℕ) (d : Option Dtype) (s state : ℕ) (tc : List ℤ)
    (sc : List ℕ) (t st2 : ℕ)
    (h : sample_unique R n state = Except.ok (sc, t, st2)) :
    ∃ out : NDArray × NDArray × NDArray,
      (LogUniformSampler.init R n d s).call state tc = Except.ok (out, st2) ∧
      out.2.1.data = tc.map (fun (c : ℤ) =>
        prob_helper t n (probExpr (Real.log ((R : ℝ) + 1)) (c : ℝ))) ∧
      out.2.2.data = sc.map (fun (c : ℕ) =>
        prob_helper t n (probExpr (Real.log ((R : ℝ) + 1)) (c : ℝ))) ∧
      out.2.1.data.length = tc.length := by
  by_cases hk : n ≤ R
  · rw [sample_unique_ok R n state hk] at h
    simp only [Except.ok.injEq, Prod.mk.injEq] at h
    obtain ⟨h1, h2, h3⟩ := h
    subst h1
    subst h2
    subst h3
    rw [call_ok (LogUniformSampler.init R n d s) state tc hk]
    exact ⟨_, rfl, rfl, rfl, List.length_map tc _⟩
  · rw [sample_unique, if_pos (by omega)] at h
    exact absurd h (by simp)

/-- C3 witness: a concrete `sample_unique` result fed through the call. -/
theorem single_sample_call_witness :
    ∃ out : NDArray × NDArray × NDArray,
      (LogUniformSampler.init 10 3 none 0).call 0 [(0 : ℤ), 0, 5] =
        Except.ok (out, 12345) ∧
      out.2.1.data = [(0 : ℤ), 0, 5].map (fun (c : ℤ) =>
        prob_helper 3 3 (probExpr (Real.log ((10 : ℝ) + 1)) (c : ℝ))) ∧
      out.2.2.data = [5, 6, 7].map (fun (c : ℕ) =>
        prob_helper 3 3 (probExpr (Real.log ((10 : ℝ) + 1)) (c : ℝ))) ∧
      out.2.1.data.length = ([(0 : ℤ), 0, 5] : List ℤ).length :=
  single_sample_call 10 3 none 0 0 [0, 0, 5] [5, 6, 7] 3 12345 rfl

/-- C4 counterexample: at the valid configuration `range_max = 2`,
`num_sampled = 2`, class 0 (`p = log 2 / log 3 ≈ 0.63`), the fast-path
value `p * 2` and the general-formula value `1 - (1-p)^2` differ by
`p^2 > 1/4`, far beyond a 1e-5 relative tolerance. -/
theorem fastpath_tolerance_cex :
    ¬ |prob_helper 2 2 (probExpr (Real.log ((2 : ℝ) + 1)) 0) -
        expm1 ((2 : ℕ) * log1p (-(probExpr (Real.log ((2 : ℝ) + 1)) 0))) * (-1)| ≤
      1 / 100000 *
        |expm1 ((2 : ℕ) * log1p (-(probExpr (Real.log ((2 : ℝ) + 1)) 0))) * (-1)| := by
  intro hcontra
  set p : ℝ := probExpr (Real.log ((2 : ℝ) + 1)) 0 with hp
  have hpv : p = Real.log 2 / Real.log 3 := by rw [hp]; exact probExpr_three_zero
  have hhalf : (1 : ℝ) / 2 < p := by rw [hpv]; exact log2_div_log3_gt_half
  have hlt1 : p < 1 := by rw [hpv]; exact log2_div_log3_lt_one
  have hfast : prob_helper 2 2 p = p * ((2 : ℕ) : ℝ) := by
    unfold prob_helper
    rw [if_pos rfl]
  have hgen : expm1 ((2 : ℕ) * log1p (-p)) * (-1) = 1 - (1 - p) ^ 2 :=
    expm1_log1p_eq_pow p hlt1 2
  rw [hfast, hgen] at hcontra
  have habs1 : |p * ((2 : ℕ) : ℝ) - (1 - (1 - p) ^ 2)| = p ^ 2 := by
    rw [show p * ((2 : ℕ) : ℝ) - (1 - (1 - p) ^ 2) = p ^ 2 by push_cast; ring]
    exact abs_of_nonneg (sq_nonneg p)
  have hg1 : |1 - (1 - p) ^ 2| ≤ 1 := by
    rw [abs_le]
    constructor
    · nlinarith
    · nlinarith
  rw [habs1] at hcontra
  nlinarith

/-- C4 amended: the fast-path value `p * num_sampled` taken when
`attempts = num_sampled` always upper-bounds the general-formula value
`1 - (1-p)^num_sampled` (Bernoulli), but the two need not agree within
1e-5 relative tolerance for every valid configuration. -/
theorem fastpath_upper_bound (p : ℝ) (hp0 : 0 ≤ p) (hp1 : p ≤ 1) (n : ℕ) :
    expm1 ((n : ℝ) * log1p (-p)) * (-1) ≤ prob_helper n n p := by
  have hfast : prob_helper n n p = p * (n : ℝ) := by
    unfold prob_helper
    rw [if_pos rfl]
  rw [hfast]
  rcases lt_or_eq_of_le hp1 with hlt | heq
  · rw [expm1_log1p_eq_pow p hlt n]
    have h := one_add_mul_le_pow (by linarith : (-2 : ℝ) ≤ -p) n
    have hpow : (1 : ℝ) - (n : ℝ) * p ≤ (1 - p) ^ n := by
      calc (1 : ℝ) - (n : ℝ) * p = 1 + (n : ℝ) * (-p) := by ring
        _ ≤ (1 + -p) ^ n := h
        _ = (1 - p) ^ n := by ring_nf
    linarith
  · subst heq
    have h0 : log1p (-1 : ℝ) = 0 := by
      unfold log1p; norm_num
    rw [h0, mul_zero]
    unfold expm1
    rw [Real.exp_zero]
    simp

/-- C4 amended witness. -/
theorem fastpath_upper_bound_witness :
    expm1 (((3 : ℕ) : ℝ) * log1p (-(1 / 2 : ℝ))) * (-1) ≤ prob_helper 3 3 (1 / 2) :=
  fastpath_upper_bound (1 / 2) (by norm_num) (by norm_num) 3

/-- C5 counterexample: with `range_max = 10`, `num_sampled = 3`, a call
whose true_classes contain 10 (outside `[0, 10)`) returns successfully:
the wrapper performs no range validation of the true class entries, so a
full (garbage-probability) result is produced instead of an error. -/
theorem invalid_true_class_cex :
    ((LogUniformSampler.init 10 3 none 0).call 0 [(10 : ℤ)]).isOk = true := rfl

/-- C5 amended: the only InvalidArgument condition is
`num_sampled > range_max`, raised by the unique sampler and surfacing
synchronously as the call's error result; no positivity validation of
`range_max`/`num_sampled` and no range validation of `true_classes`
exists — every call with `num_sampled ≤ range_max` returns successfully,
whatever `true_classes` holds. -/
theorem error_handling_spec (R n : ℕ) (d : Option Dtype) (s state : ℕ) (tc : List ℤ) :
    (R < n → (LogUniformSampler.init R n d s).call state tc =
      Except.error "InvalidArgument: cannot draw k distinct values when k > range_max") ∧
    (n ≤ R → ((LogUniformSampler.init R n d s).call state tc).isOk = true) := by
  constructor
  · intro h
    exact call_err _ state tc h
  · intro h
    rw [call_ok _ state tc h]
    rfl

/-- C5 amended witness: a failing oversized request and a succeeding call
with an out-of-range true class. -/
theorem error_handling_spec_witness :
    (LogUniformSampler.init 3 5 none 0).call 0 [] =
      Except.error "InvalidArgument: cannot draw k distinct values when k > range_max" ∧
    ((LogUniformSampler.init 10 3 none 0).call 0 [(0 : ℤ), 7, 99]).isOk = true :=
  ⟨(error_handling_spec 3 5 none 0 0 []).1 (by norm_num),
   (error_handling_spec 10 3 none 0 0 [0, 7, 99]).2 (by norm_num)⟩

/-- C6 counterexample: under the default configuration (`dtype = None`,
hence float32) the sampled classes are NOT kept as integers: the returned
`sampled_classes` NDArray carries dtype float32, because the source casts
all three outputs with `astype(self._dtype)`. -/
theorem sampled_cast_cex :
    ((LogUniformSampler.init 10 3 none 0).call 0 [(1 : ℤ)]).map
        (fun o => o.1.1.dtype) = Except.ok Dtype.float32 ∧
      Dtype.float32 ≠ Dtype.int64 :=
  ⟨rfl, by decide⟩

/-- C6 amended: all three outputs — the sampled classes included — are
cast to the configured output dtype, which defaults to 32-bit float when
the configuration leaves dtype unset. -/
theorem outputs_cast_spec (R n : ℕ) (d : Option Dtype) (s state : ℕ) (tc : List ℤ)
    (hk : n ≤ R) :
    ∃ out : NDArray × NDArray × NDArray, ∃ st2 : ℕ,
      (LogUniformSampler.init R n d s).call state tc = Except.ok (out, st2) ∧
      out.1.dtype = d.getD Dtype.float32 ∧
      out.2.1.dtype = d.getD Dtype.float32 ∧
      out.2.2.dtype = d.getD Dtype.float32 := by
  rw [call_ok (LogUniformSampler.init R n d s) state tc hk]
  exact ⟨_, _, rfl, rfl, rfl, rfl⟩

/-- C6 amended witness: an explicitly configured float64 sampler. -/
theorem outputs_cast_spec_witness :
    ∃ out : NDArray × NDArray × NDArray, ∃ st2 : ℕ,
      (LogUniformSampler.init 10 3 (some Dtype.float64) 0).call 0 [(2 : ℤ)] =
        Except.ok (out, st2) ∧
      out.1.dtype = (some Dtype.float64).getD Dtype.float32 ∧
      out.2.1.dtype = (some Dtype.float64).getD Dtype.float32 ∧
      out.2.2.dtype = (some Dtype.float64).getD Dtype.float32 :=
  outputs_cast_spec 10 3 (some Dtype.float64) 0 0 [2] (by norm_num)

/-- C7: for class indices in `[0, range_max)` the estimator value is in
`[0, num_sampled]` for EVERY attempt count (covering the extreme index
`range_max - 1` and attempts up to 10^7 and beyond), and every entry of
both expected-count outputs of a successful call lies in
`[0, num_sampled]` (finiteness is inherent to the real-valued embedding). -/
theorem expected_count_bounds (R n : ℕ) (d : Option Dtype) (s state t : ℕ)
    (tc : List ℤ) (hR : 1 ≤ R) (hn : 1 ≤ n) (hk : n ≤ R)
    (htc : ∀ c ∈ tc, 0 ≤ c ∧ c < (R : ℤ)) :
    (∀ c : ℕ, c < R →
      0 ≤ prob_helper t n (probExpr (Real.log ((R : ℝ) + 1)) (c : ℝ)) ∧
        prob_helper t n (probExpr (Real.log ((R : ℝ) + 1)) (c : ℝ)) ≤ (n : ℝ)) ∧
    ∃ out : NDArray × NDArray × NDArray, ∃ st2 : ℕ,
      (LogUniformSampler.init R n d s).call state tc = Except.ok (out, st2) ∧
      (∀ x ∈ out.2.1.data, 0 ≤ x ∧ x ≤ (n : ℝ)) ∧
      (∀ x ∈ out.2.2.data, 0 ≤ x ∧ x ≤ (n : ℝ)) := by
  constructor
  · intro c hc
    have hc1 : (c : ℝ) + 1 ≤ (R : ℝ) := by exact_mod_cast Nat.succ_le_of_lt hc
    obtain ⟨hp0, hp1⟩ := probExpr_bounds R hR (c : ℝ) (by positivity) hc1
    exact prob_helper_mem t n _ hn hp0 hp1
  · rw [call_ok (LogUniformSampler.init R n d s) state tc hk]
    refine ⟨_, _, rfl, ?_, ?_⟩
    · intro x hx
      rw [List.mem_map] at hx
      obtain ⟨z, hz, rfl⟩ := hx
      obtain ⟨hz0, hzR⟩ := htc z hz
      have hz0r : (0 : ℝ) ≤ (z : ℝ) := by exact_mod_cast hz0
      have hz1 : (z : ℝ) + 1 ≤ (R : ℝ) := by
        have : z + 1 ≤ (R : ℤ) := by omega
        exact_mod_cast this
      obtain ⟨hp0, hp1⟩ := probExpr_bounds R hR (z : ℝ) hz0r hz1
      exact prob_helper_mem _ n _ hn hp0 hp1
    · intro x hx
      rw [List.mem_map] at hx
      obtain ⟨m, hm, rfl⟩ := hx
      rw [List.mem_map] at hm
      obtain ⟨i, _, rfl⟩ := hm
      have hmR : (lcgStep state % R + i) % R < R := Nat.mod_lt _ (by omega)
      have hm1 : (((lcgStep state % R + i) % R : ℕ) : ℝ) + 1 ≤ (R : ℝ) := by
        exact_mod_cast Nat.succ_le_of_lt hmR
      obtain ⟨hp0, hp1⟩ := probExpr_bounds R hR _ (by positivity) hm1
      exact prob_helper_mem _ n _ hn hp0 hp1

/-- C7 witness: extreme attempts count, repeated and extreme classes. -/
theorem expected_count_bounds_witness :
    (∀ c : ℕ, c < 10 →
      0 ≤ prob_helper 10000000 3 (probExpr (Real.log ((10 : ℝ) + 1)) (c : ℝ)) ∧
        prob_helper 10000000 3 (probExpr (Real.log ((10 : ℝ) + 1)) (c : ℝ)) ≤ ((3 : ℕ) : ℝ)) ∧
    ∃ out : NDArray × NDArray × NDArray, ∃ st2 : ℕ,
      (LogUniformSampler.init 10 3 none 0).call 0 [(0 : ℤ), 0, 9] =
        Except.ok (out, st2) ∧
      (∀ x ∈ out.2.1.data, 0 ≤ x ∧ x ≤ ((3 : ℕ) : ℝ)) ∧
      (∀ x ∈ out.2.2.data, 0 ≤ x ∧ x ≤ ((3 : ℕ) : ℝ)) :=
  expected_count_bounds 10 3 none 0 0 10000000 [0, 0, 9]
    (by norm_num) (by norm_num) (by norm_num) (by decide)

/-- C8: the base probability is non-increasing in the class index
(`c1 < c2 < range_max` gives `p(c2) ≤ p(c1)`), and consequently — with the
attempts value fixed — the expected count of the smaller class index is at
least that of the larger one. -/
theorem prob_monotone (R c1 c2 t n : ℕ) (h12 : c1 < c2) (hR : c2 < R) :
    probExpr (Real.log ((R : ℝ) + 1)) (c2 : ℝ) ≤
      probExpr (Real.log ((R : ℝ) + 1)) (c1 : ℝ) ∧
    prob_helper t n (probExpr (Real.log ((R : ℝ) + 1)) (c2 : ℝ)) ≤
      prob_helper t n (probExpr (Real.log ((R : ℝ) + 1)) (c1 : ℝ)) := by
  have hR2 : 2 ≤ R := by omega
  have hR2r : (2 : ℝ) ≤ (R : ℝ) := by exact_mod_cast hR2
  have hL : 0 < Real.log ((R : ℝ) + 1) := Real.log_pos (by linarith)
  have hc12 : ((c1 : ℝ)) ≤ (c2 : ℝ) := by exact_mod_cast h12.le
  have hle := probExpr_antitone _ hL (c1 : ℝ) (c2 : ℝ) (by positivity) hc12
  refine ⟨hle, ?_⟩
  have hc2R : (c2 : ℝ) + 1 ≤ (R : ℝ) := by exact_mod_cast Nat.succ_le_of_lt hR
  exact prob_helper_mono t n _ _
    (probExpr_bounds R (by omega) (c2 : ℝ) (by positivity) hc2R).1 hle
    (probExpr_lt_one R hR2 (c1 : ℝ) (by positivity))

/-- C8 witness: classes 0 and 5 with range_max 10. -/
theorem prob_monotone_witness :
    probExpr (Real.log ((10 : ℝ) + 1)) ((5 : ℕ) : ℝ) ≤
      probExpr (Real.log ((10 : ℝ) + 1)) ((0 : ℕ) : ℝ) ∧
    prob_helper 3 3 (probExpr (Real.log ((10 : ℝ) + 1)) ((5 : ℕ) : ℝ)) ≤
      prob_helper 3 3 (probExpr (Real.log ((10 : ℝ) + 1)) ((0 : ℕ) : ℝ)) :=
  prob_monotone 10 0 5 3 3 (by norm_num) (by norm_num)

/-- C9: two sampler instances agreeing on `range_max`, `num_sampled` and
`seed` (dtype may differ) produce identical `(sampled_classes, attempts)`
traces over any number of repeated calls, and on any one call their
sampled output values and advanced generator state coincide. -/
theorem seed_determinism (s1 s2 : LogUniformSampler)
    (hR : s1.range_max = s2.range_max) (hn : s1.num_sampled = s2.num_sampled)
    (hs : s1.seed = s2.seed) :
    (∀ m, s1.sampleTrace m = s2.sampleTrace m) ∧
    (∀ state tc, (s1.call state tc).map (fun o => (o.1.1.data, o.2)) =
                 (s2.call state tc).map (fun o => (o.1.1.data, o.2))) := by
  constructor
  · intro m
    unfold LogUniformSampler.sampleTrace
    rw [hR, hn, hs]
  · intro state tc
    unfold LogUniformSampler.call
    rw [hR, hn]
    cases sample_unique s2.range_max s2.num_sampled state with
    | error e => rfl
    | ok v =>
      obtain ⟨sc, t, st2⟩ := v
      rfl

/-- C9 witness: same configuration, different dtypes. -/
theorem seed_determinism_witness :
    (∀ m, (LogUniformSampler.init 10 3 none 7).sampleTrace m =
          (LogUniformSampler.init 10 3 (some Dtype.float64) 7).sampleTrace m) ∧
    (∀ state tc,
      ((LogUniformSampler.init 10 3 none 7).call state tc).map
          (fun o => (o.1.1.data, o.2)) =
        ((LogUniformSampler.init 10 3 (some Dtype.float64) 7).call state tc).map
          (fun o => (o.1.1.data, o.2))) :=
  seed_determinism _ _ rfl rfl rfl

/-- C10: for `0 < p < 1` the general-branch value `-(expm1 (n * log1p (-p)))`
is nondecreasing in the attempt count and never exceeds 1, whereas the
fast-path value `p * num_sampled` exceeds 1 at the valid configuration
`range_max = 2`, `num_sampled = 2`, class 0. -/
theorem general_branch_props (p : ℝ) (hp0 : 0 < p) (hp1 : p < 1) :
    (∀ a b : ℕ, a ≤ b →
      expm1 ((a : ℝ) * log1p (-p)) * (-1) ≤ expm1 ((b : ℝ) * log1p (-p)) * (-1)) ∧
    (∀ a : ℕ, expm1 ((a : ℝ) * log1p (-p)) * (-1) ≤ 1) ∧
    1 < prob_helper 2 2 (probExpr (Real.log ((2 : ℝ) + 1)) 0) := by
  refine ⟨?_, ?_, ?_⟩
  · intro a b hab
    rw [expm1_log1p_eq_pow p hp1 a, expm1_log1p_eq_pow p hp1 b]
    have h := pow_le_pow_of_le_one (by linarith : (0 : ℝ) ≤ 1 - p) (by linarith) hab
    linarith
  · intro a
    rw [expm1_log1p_eq_pow p hp1 a]
    have h := pow_nonneg (by linarith : (0 : ℝ) ≤ 1 - p) a
    linarith
  · have hfast : prob_helper 2 2 (probExpr (Real.log ((2 : ℝ) + 1)) 0) =
        probExpr (Real.log ((2 : ℝ) + 1)) 0 * ((2 : ℕ) : ℝ) := by
      unfold prob_helper
      rw [if_pos rfl]
    rw [hfast, probExpr_three_zero]
    have h := log2_div_log3_gt_half
    push_cast
    linarith

/-- C10 witness at `p = 1/2`. -/
theorem general_branch_props_witness :
    (expm1 (((1 : ℕ) : ℝ) * log1p (-(1 / 2 : ℝ))) * (-1) ≤
      expm1 (((2 : ℕ) : ℝ) * log1p (-(1 / 2 : ℝ))) * (-1)) ∧
    (expm1 (((5 : ℕ) : ℝ) * log1p (-(1 / 2 : ℝ))) * (-1) ≤ 1) ∧
    1 < prob_helper 2 2 (probExpr (Real.log ((2 : ℝ) + 1)) 0) := by
  obtain ⟨h1, h2, h3⟩ := general_branch_props (1 / 2) (by norm_num) (by norm_num)
  exact ⟨h1 1 2 (by norm_num), h2 5, h3⟩

end GluonNLP
